import Mathlib

/-!
Shallow embedding of the Mercer chatbot backend
(`mercerchatbotbackend2/app/main.py`): artifact key scheme, OCR
preprocessing, the PDF-ingestion pipeline `process_pdf_to_gcs`, the
downstream call `call_gpu_backend` with its enrichment passes, and the
`chat` route composing them.  External effects (GCS puts/signs/metadata
reads, HTTP POST, the tesseract engine, PDF rendering) are modelled as
explicit oracle functions returning `Except`; a raised Python exception is
an `Except.error`.
-/

namespace Mercer

/-- Fuel-driven decimal rendering: with enough fuel, emits the decimal
digits of `n` most significant first. -/
def natCharsAux : Nat → Nat → List Char
  | 0, _ => []
  | fuel + 1, n =>
    if n < 10 then [Nat.digitChar n]
    else natCharsAux fuel (n / 10) ++ [Nat.digitChar (n % 10)]

/-- Decimal digits of a natural number (Python `str(i)` inside the
f-strings); `n + 1` fuel always suffices. -/
def natChars (n : Nat) : List Char := natCharsAux (n + 1) n

/-- Decimal string of a natural number. -/
def natStr (n : Nat) : String := ⟨natChars n⟩

/-! ## Artifact key scheme (f-strings in `process_pdf_to_gcs`) -/

/-- Key of the original PDF: `pdfs/{conv}/{doc_id}.pdf`. -/
def pdfKeyOf (conv doc_id : String) : String :=
  "pdfs/" ++ conv ++ "/" ++ doc_id ++ ".pdf"

/-- Key of a rendered page image: `pages/{conv}/{doc_id}/page_{i}.png`. -/
def imgKeyOf (conv doc_id : String) (i : Nat) : String :=
  "pages/" ++ conv ++ "/" ++ doc_id ++ "/page_" ++ natStr i ++ ".png"

/-- Key of a page's OCR text: `text/{conv}/{doc_id}/page_{i}.txt`. -/
def txtKeyOf (conv doc_id : String) (i : Nat) : String :=
  "text/" ++ conv ++ "/" ++ doc_id ++ "/page_" ++ natStr i ++ ".txt"

/-- The three artifact kinds of the key scheme. -/
inductive AKind where
  | pdf
  | pageImage
  | pageText
deriving DecidableEq, Repr

/-- The artifact key scheme as one function of
`(kind, conversation_id, doc_id, page_number)`; the page number is ignored
for the original-PDF kind. -/
def artifactKey : AKind → String → String → Nat → String
  | .pdf, conv, doc_id, _ => pdfKeyOf conv doc_id
  | .pageImage, conv, doc_id, i => imgKeyOf conv doc_id i
  | .pageText, conv, doc_id, i => txtKeyOf conv doc_id i

/-- Characters that `uuid4().hex` can produce. -/
def isLowerHexDigit (c : Char) : Bool :=
  c.isDigit || (decide ('a' ≤ c) && decide (c ≤ 'f'))

/-- Shape of `make_doc_id()` output: `uuid.uuid4().hex[:16]`, i.e. sixteen
lowercase hexadecimal characters. -/
def validDocId (s : String) : Bool :=
  s.length == 16 && s.data.all isLowerHexDigit

/-! ## Images and OCR (`ocr_image_to_text`) -/

/-- A PIL image, abstracted to its size and color mode; pixel content is
irrelevant to every claim and is carried by the oracle recognizer. -/
structure Image where
  width : Nat
  height : Nat
  mode : String
deriving DecidableEq, Repr

/-- `img.convert(m)`: same size, new color mode. -/
def convertMode (img : Image) (m : String) : Image :=
  ⟨img.width, img.height, m⟩

/-- `im.resize((w, h))`: new size, same color mode. -/
def resizeImg (img : Image) (w h : Nat) : Image :=
  ⟨w, h, img.mode⟩

/-- Fuel-driven base-2 logarithm: `log2fuel fuel n` is `⌊log2 n⌋` for
`1 ≤ n ≤ fuel`. -/
def log2fuel : Nat → Nat → Nat
  | 0, _ => 0
  | fuel + 1, n => if 2 ≤ n then log2fuel fuel (n / 2) + 1 else 0

/-- `⌊log2 n⌋` for `n ≥ 1` (`n` fuel always suffices). -/
def natLog2 (n : Nat) : Nat := log2fuel n n

/-- IEEE-754 binary64 rounding of the positive rational `a / b`
(round-to-nearest, ties to even), returned as a dyadic pair `(m, E)`
denoting `m / 2^E`.  For `1 ≤ a/b ≤ 2^52` the binade exponent is
`e = ⌊log2 (a/b)⌋`, the ulp is `2^(e-52)`, and the mantissa is the
half-to-even rounding of `a·2^(52-e) / b`. -/
def rneDiv (a b : Nat) : Nat × Nat :=
  let e := natLog2 (a / b)
  let E := 52 - e
  let num := a * 2 ^ E
  let m0 := num / b
  let r := num % b
  (if 2 * r < b then m0
   else if b < 2 * r then m0 + 1
   else if m0 % 2 = 0 then m0 else m0 + 1, E)

/-- Exact rational value of the binary64 rounding of `a / b`. -/
def rneVal (a b : Nat) : ℚ :=
  ((rneDiv a b).1 : ℚ) / 2 ^ (rneDiv a b).2

/-- Python's `int(w * scale)` where `scale = 1600.0 / mx`: the scale is
the correctly rounded binary64 quotient (integers this small convert to
binary64 exactly), the float product `w * scale` is the correctly rounded
binary64 value of the exact product, and `int` truncates toward zero.
All three steps are computed exactly on dyadic rationals. -/
def pyResizeDim (w mx : Nat) : Nat :=
  if w = 0 then 0
  else
    let s := rneDiv 1600 mx
    let t := rneDiv (w * s.1) (2 ^ s.2)
    t.1 / 2 ^ t.2

/-- The preprocessing of `ocr_image_to_text`: convert to RGB and, when the
larger dimension is below 1600, resize both dimensions by the binary64
factor `1600.0 / max w h`, each product rounded to binary64 and truncated
(`int(w * scale)`, `int(h * scale)`). -/
def preprocessForOcr (img : Image) : Image :=
  let im := convertMode img "RGB"
  if max im.width im.height < 1600 then
    let mx := max im.width im.height
    resizeImg im (pyResizeDim im.width mx) (pyResizeDim im.height mx)
  else im

/-- The normalization applied to recognized text:
`txt.replace("\r\n","\n").replace("\r","\n").strip()`. -/
def normalizeOcr (s : String) : String :=
  ((s.replace "\r\n" "\n").replace "\r" "\n").trim

/-- `ocr_image_to_text`: preprocess, run the recognizer, normalize; a
recognizer exception is re-raised as `RuntimeError("OCR failed: ...")`. -/
def ocr_image_to_text (engine : Image → Except String String)
    (img : Image) : Except String String :=
  match engine (preprocessForOcr img) with
  | .ok txt => .ok (normalizeOcr txt)
  | .error e => .error ("OCR failed: " ++ e)

/-! ## Ingestion pipeline (`process_pdf_to_gcs`) -/

/-- Raw bytes of the uploaded file. -/
abbrev Bytes := List Nat

/-- `conv = conversation_id or "no-conv"`: the placeholder substituted for
a blank conversation identifier at the top of `process_pdf_to_gcs`. -/
def convOf (conversation_id : String) : String :=
  if conversation_id = "" then "no-conv" else conversation_id

/-- A raised Python exception: either a FastAPI `HTTPException` with its
status code and detail, or any other exception with its message. -/
inductive PyErr where
  | httpError (status : Nat) (detail : String)
  | exn (msg : String)
deriving DecidableEq, Repr

/-- Which call site of `gcs_put_and_sign` produced an upload. -/
inductive UploadKind where
  | pdf
  | pageImage
  | pageText
deriving DecidableEq, Repr

/-- One successful `gcs_put_and_sign` call: key, kind, content type,
metadata, and (for text artifacts) the uploaded text. -/
structure Upload where
  key : String
  kind : UploadKind
  contentType : String
  metadata : List (String × String)
  text : Option String
deriving DecidableEq, Repr

/-- The dict returned by `process_pdf_to_gcs`. -/
structure PdfResult where
  conversation_id : String
  doc_id : String
  pdf_key : String
  pages_count : Nat
deriving DecidableEq, Repr

/-- External effects of the pipeline: `put key` is the combined outcome of
`gcs_put_and_sign` on that key (error = raised exception, no upload);
`ocr` is the tesseract engine applied to a preprocessed image;
`render raw` is `convert_from_bytes` on the PDF bytes.  Constant strings
model the process-wide `TESS_VERSION`, `OCR_LANG` and the `_now_iso()`
timestamps. -/
structure Env where
  put : String → Except String String
  ocr : Image → Except String String
  render : Bytes → Except String (List Image)
  tessVersion : String
  ocrLang : String
  now : String

/-- Per-page metadata attached to a page image. -/
def pageMeta (conv doc_id : String) (i : Nat) (pdf_key safe_name : String) :
    List (String × String) :=
  [("conversation_id", conv), ("doc_id", doc_id),
   ("page_number", natStr i), ("source_pdf_key", pdf_key),
   ("original_filename", safe_name)]

/-- Extended metadata attached to a page's OCR-text artifact. -/
def txtMetaOf (env : Env) (meta : List (String × String)) (img_key : String) :
    List (String × String) :=
  meta ++
    [("source_image_key", img_key), ("ocr_engine", "tesseract"),
     ("ocr_version", env.tessVersion), ("ocr_lang", env.ocrLang),
     ("ocr_at", env.now), ("content_type", "text/plain; charset=utf-8")]

/-- The per-page loop of `process_pdf_to_gcs`, from page number `i` on.
A page-image upload failure is not caught: the loop stops and reports the
exception.  An OCR failure is caught and replaced by `""`; a text-upload
failure is caught and the upload is simply absent. -/
def processPages (env : Env) (conv doc_id pdf_key safe_name : String) :
    List Image → Nat → List Upload × Option PyErr
  | [], _ => ([], none)
  | img :: rest, i =>
    let meta := pageMeta conv doc_id i pdf_key safe_name
    let img_key := imgKeyOf conv doc_id i
    match env.put img_key with
    | .error e => ([], some (.exn e))
    | .ok _ =>
      let imgUp : Upload := ⟨img_key, .pageImage, "image/png", meta, none⟩
      let ocr_text :=
        match ocr_image_to_text env.ocr img with
        | .ok t => t
        | .error _ => ""
      let txt_key := txtKeyOf conv doc_id i
      let txtUps : List Upload :=
        match env.put txt_key with
        | .ok _ => [⟨txt_key, .pageText, "text/plain; charset=utf-8",
                     txtMetaOf env meta img_key, some ocr_text⟩]
        | .error _ => []
      let res := processPages env conv doc_id pdf_key safe_name rest (i + 1)
      (imgUp :: (txtUps ++ res.1), res.2)

/-- `process_pdf_to_gcs(conversation_id, file_path, original_filename)`:
`readResult` is the outcome of reading `file_path`; `doc_id` is the value
produced by `make_doc_id()`.  Returns the list of uploads that happened
together with the returned dict or the raised exception. -/
def process_pdf_to_gcs (env : Env) (conversation_id : String)
    (readResult : Except String Bytes) (original_filename doc_id : String) :
    List Upload × Except PyErr PdfResult :=
  let conv := convOf conversation_id
  let safe_name := original_filename
  match readResult with
  | .error e => ([], .error (.httpError 400 ("Could not read file: " ++ e)))
  | .ok raw =>
    if raw.isEmpty then ([], .error (.httpError 400 "File is empty."))
    else
      let pdf_key := pdfKeyOf conv doc_id
      match env.put pdf_key with
      | .error e => ([], .error (.exn e))
      | .ok _ =>
        let pdfUp : Upload :=
          ⟨pdf_key, .pdf, "application/pdf",
           [("original_filename", safe_name), ("conversation_id", conv),
            ("doc_id", doc_id), ("uploaded_at", env.now)], none⟩
        match env.render raw with
        | .error e => ([pdfUp], .error (.exn e))
        | .ok pil_pages =>
          let res := processPages env conv doc_id pdf_key safe_name pil_pages 1
          match res.2 with
          | some err => (pdfUp :: res.1, .error err)
          | none =>
            (pdfUp :: res.1,
             .ok ⟨conv, doc_id, pdf_key, pil_pages.length⟩)

/-! ## Downstream call and enrichment (`call_gpu_backend`, `chat`) -/

/-- A JSON value, as far as the enrichment code inspects one. -/
inductive JVal where
  | jnull
  | jbool (b : Bool)
  | jnum (n : Int)
  | jstr (s : String)
  | jlist (xs : List JVal)

/-- Python truthiness of a JSON value (`or []` coercion). -/
def jFalsy : JVal → Bool
  | .jnull => true
  | .jbool b => !b
  | .jnum n => n == 0
  | .jstr s => s == ""
  | .jlist xs => xs.isEmpty

/-- `body.get("pages_used", []) or []`. -/
def coercePagesUsed : Option JVal → JVal
  | none => .jlist []
  | some v => if jFalsy v then .jlist [] else v

/-- One record of the `page_info` list. -/
structure PageInfo where
  page_key : String
  pdf_name : Option String
  page_number : Option String
deriving DecidableEq, Repr

/-- The JSON dict flowing back to the caller: `ai` stands for the
downstream textual answer (passed through unmodified); `conversation_id`
is present in the stub answer; `pages_used` is the downstream field the
enrichment inspects; `page_image_urls` and `page_info` are the fields the
enrichment adds (absent when it does not run). -/
structure Body where
  ai : String
  conversation_id : Option String
  pages_used : Option JVal
  page_image_urls : Option (List String)
  page_info : Option (List PageInfo)

/-- First enrichment pass: for each entry that is a non-empty string, try
`gcs_sign_only`; a signing exception only skips that entry. -/
def signLoop (sign : String → Except String String) :
    List JVal → List String
  | [] => []
  | v :: rest =>
    match v with
    | .jstr s =>
      if s = "" then signLoop sign rest
      else
        match sign s with
        | .ok u => u :: signLoop sign rest
        | .error _ => signLoop sign rest
    | _ => signLoop sign rest

/-- Second enrichment pass: for each entry that is a non-empty string, try
`blob.reload()` and read `original_filename` / `page_number` from the
metadata; a failure only skips that entry. -/
def infoLoop (readMeta : String → Except String (List (String × String))) :
    List JVal → List PageInfo
  | [] => []
  | v :: rest =>
    match v with
    | .jstr s =>
      if s = "" then infoLoop readMeta rest
      else
        match readMeta s with
        | .ok meta =>
          ⟨s, (meta.lookup "original_filename"), (meta.lookup "page_number")⟩
            :: infoLoop readMeta rest
        | .error _ => infoLoop readMeta rest
    | _ => infoLoop readMeta rest

/-- The post-processing of a successful downstream body: when the coerced
`pages_used` is a list, attach `page_image_urls` and `page_info`;
otherwise the body is returned untouched. -/
def enrich (sign : String → Except String String)
    (readMeta : String → Except String (List (String × String)))
    (body : Body) : Body :=
  match coercePagesUsed body.pages_used with
  | .jlist xs =>
    { body with
      page_image_urls := some (signLoop sign xs)
      page_info := some (infoLoop readMeta xs) }
  | _ => body

/-- The JSON payload POSTed to the GPU backend. -/
structure GpuPayload where
  conversation_id : String
  human : String
  doc_id : Option String
deriving DecidableEq, Repr

/-- `payload = {conversation_id, human}` plus `doc_id` only when truthy. -/
def mkGpuPayload (conversation_id human : String) (doc_id : Option String) :
    GpuPayload :=
  ⟨conversation_id, human,
   match doc_id with
   | some s => if s = "" then none else some s
   | none => none⟩

/-- An HTTP response: status code and the outcome of `resp.json()`. -/
structure HttpResp where
  status : Nat
  jsonBody : Except String Body

/-- Message of the `HTTPError` that `resp.raise_for_status()` raises for a
status of 400 or above. -/
def statusFailMsg (status : Nat) : String :=
  "HTTP error " ++ natStr status

/-- The stub answer returned when `GPU_BACKEND_URL` is unset. -/
def stubBody (conversation_id : String) : Body :=
  ⟨"(stub) GPU_BACKEND_URL not configured.", some conversation_id,
   none, none, none⟩

/-- `call_gpu_backend(conversation_id, human, doc_id)`: `gpuUrl` is
`GPU_BACKEND_URL`; `post` is the outcome of `requests.post` on the payload
(error = transport failure); `sign` and `readMeta` serve the enrichment.
Any transport failure, non-success status, or JSON-decoding failure is
re-raised as `HTTPException(502, "GPU backend error: ...")`. -/
def call_gpu_backend (gpuUrl : Option String)
    (post : GpuPayload → Except String HttpResp)
    (sign : String → Except String String)
    (readMeta : String → Except String (List (String × String)))
    (conversation_id human : String) (doc_id : Option String) :
    Except PyErr Body :=
  match gpuUrl with
  | none => .ok (stubBody conversation_id)
  | some _ =>
    match post (mkGpuPayload conversation_id human doc_id) with
    | .error e => .error (.httpError 502 ("GPU backend error: " ++ e))
    | .ok resp =>
      if 400 ≤ resp.status then
        .error (.httpError 502
          ("GPU backend error: " ++ statusFailMsg resp.status))
      else
        match resp.jsonBody with
        | .error e => .error (.httpError 502 ("GPU backend error: " ++ e))
        | .ok body => .ok (enrich sign readMeta body)

/-- Combined failure of the downstream exchange, if any: the transport
error, the raised status error, or the JSON-decoding error. -/
def gpuFailure : Except String HttpResp → Option String
  | .error e => some e
  | .ok resp =>
    if 400 ≤ resp.status then some (statusFailMsg resp.status)
    else
      match resp.jsonBody with
      | .error e => some e
      | .ok _ => none

/-- The `/chat` route: when a PDF is attached, run ingestion (an exception
aborts the request) and pass its `doc_id` on; then call the GPU backend
with the caller-supplied `conversation_id`. -/
def chat (env : Env) (gpuUrl : Option String)
    (post : GpuPayload → Except String HttpResp)
    (sign : String → Except String String)
    (readMeta : String → Except String (List (String × String)))
    (human conversation_id : String)
    (pdf : Option (Except String Bytes)) (original_filename doc_id : String) :
    Except PyErr Body :=
  match pdf with
  | none => call_gpu_backend gpuUrl post sign readMeta conversation_id human none
  | some readResult =>
    match (process_pdf_to_gcs env conversation_id readResult
        original_filename doc_id).2 with
    | .error e => .error e
    | .ok r =>
      call_gpu_backend gpuUrl post sign readMeta conversation_id human
        (some r.doc_id)

/-! ## Derived notions used by the statements -/

/-- The entry filter shared by both enrichment loops:
`isinstance(k, str) and k`. -/
def validKeyOf : JVal → Option String
  | .jstr s => if s = "" then none else some s
  | _ => none

/-- The non-empty string entries of a `pages_used` list, in order. -/
def validKeys (xs : List JVal) : List String :=
  xs.filterMap validKeyOf

/-- The page-info record the metadata pass builds for one key, when its
metadata read succeeds. -/
def infoOf (readMeta : String → Except String (List (String × String)))
    (k : String) : Option PageInfo :=
  match readMeta k with
  | .ok meta =>
    some ⟨k, meta.lookup "original_filename", meta.lookup "page_number"⟩
  | .error _ => none

/-- Keys of the page-image uploads of a run, in order. -/
def imageKeysOf (ups : List Upload) : List String :=
  (ups.filter fun u => u.kind == UploadKind.pageImage).map fun u => u.key

/-- Keys of the page-text uploads of a run, in order. -/
def textKeysOf (ups : List Upload) : List String :=
  (ups.filter fun u => u.kind == UploadKind.pageText).map fun u => u.key

/-! ## Enrichment lemmas -/

theorem signLoop_eq_filterMap (sign : String → Except String String)
    (xs : List JVal) :
    signLoop sign xs = (validKeys xs).filterMap fun k => (sign k).toOption := by
  induction xs with
  | nil => rfl
  | cons v rest ih =>
    cases v with
    | jstr s =>
      by_cases hs : s = ""
      · simp [signLoop, validKeys, validKeyOf, hs, List.filterMap_cons, ih]
      · cases hsig : sign s with
        | ok u =>
          simp [signLoop, validKeys, validKeyOf, hs, hsig, List.filterMap_cons,
            Except.toOption, ih]
        | error e =>
          simp [signLoop, validKeys, validKeyOf, hs, hsig, List.filterMap_cons,
            Except.toOption, ih]
    | jnull => simpa [signLoop, validKeys, validKeyOf, List.filterMap_cons] using ih
    | jbool b => simpa [signLoop, validKeys, validKeyOf, List.filterMap_cons] using ih
    | jnum n => simpa [signLoop, validKeys, validKeyOf, List.filterMap_cons] using ih
    | jlist l => simpa [signLoop, validKeys, validKeyOf, List.filterMap_cons] using ih

theorem infoLoop_eq_filterMap
    (readMeta : String → Except String (List (String × String)))
    (xs : List JVal) :
    infoLoop readMeta xs = (validKeys xs).filterMap (infoOf readMeta) := by
  induction xs with
  | nil => rfl
  | cons v rest ih =>
    cases v with
    | jstr s =>
      by_cases hs : s = ""
      · simp [infoLoop, validKeys, validKeyOf, hs, List.filterMap_cons, ih]
      · cases hmeta : readMeta s with
        | ok m =>
          simp [infoLoop, validKeys, validKeyOf, hs, hmeta, infoOf,
            List.filterMap_cons, ih]
        | error e =>
          simp [infoLoop, validKeys, validKeyOf, hs, hmeta, infoOf,
            List.filterMap_cons, ih]
    | jnull => simpa [infoLoop, validKeys, validKeyOf, List.filterMap_cons] using ih
    | jbool b => simpa [infoLoop, validKeys, validKeyOf, List.filterMap_cons] using ih
    | jnum n => simpa [infoLoop, validKeys, validKeyOf, List.filterMap_cons] using ih
    | jlist l => simpa [infoLoop, validKeys, validKeyOf, List.filterMap_cons] using ih

/-! ## Claims -/

/-- C5: if the uploaded document's bytes are empty, ingestion raises
`HTTPException(400, "File is empty.")` and performs zero uploads, for
every environment and every other input. -/
theorem ingest_empty_file_rejected (env : Env) (conv fn doc : String) :
    process_pdf_to_gcs env conv (.ok []) fn doc =
      ([], .error (.httpError 400 "File is empty.")) := rfl

/-- C9: with `GPU_BACKEND_URL` unset, `call_gpu_backend` returns the fixed
stub answer for every choice of the network oracles, hence succeeds and
depends on no network effect at all. -/
theorem ask_unconfigured_stub
    (post : GpuPayload → Except String HttpResp)
    (sign : String → Except String String)
    (readMeta : String → Except String (List (String × String)))
    (conv human : String) (doc_id : Option String) :
    call_gpu_backend none post sign readMeta conv human doc_id =
      .ok (stubBody conv) := rfl

/-! ## Concrete oracles for witnesses -/

/-- A blob store whose every operation succeeds. -/
def putOk : String → Except String String := fun k => .ok ("signed-" ++ k)

/-- A recognizer that always fails. -/
def ocrFail : Image → Except String String := fun _ => .error "boom"

/-- A metadata reader that always finds the same bag. -/
def metaOk : String → Except String (List (String × String)) :=
  fun _ => .ok [("original_filename", "f.pdf"), ("page_number", "2")]

/-- A network oracle that always fails. -/
def postFail : GpuPayload → Except String HttpResp := fun _ => .error "down"

/-- C10: an entry of `pages_used` that is not a non-empty string
contributes nothing to either enrichment pass, causes no error, and leaves
the results for the surrounding entries unchanged and in order. -/
theorem ask_invalid_entries_skipped
    (sign : String → Except String String)
    (readMeta : String → Except String (List (String × String)))
    (v : JVal) (xs ys : List JVal) (hv : validKeyOf v = none) :
    signLoop sign (xs ++ v :: ys) = signLoop sign (xs ++ ys) ∧
    infoLoop readMeta (xs ++ v :: ys) = infoLoop readMeta (xs ++ ys) := by
  have hval : validKeys (xs ++ v :: ys) = validKeys (xs ++ ys) := by
    simp [validKeys, List.filterMap_append, List.filterMap_cons, hv]
  exact ⟨by rw [signLoop_eq_filterMap, signLoop_eq_filterMap, hval],
         by rw [infoLoop_eq_filterMap, infoLoop_eq_filterMap, hval]⟩

/-- Witness for C10 at a null entry between two valid keys. -/
theorem ask_invalid_entries_skipped_witness :
    validKeyOf JVal.jnull = none ∧
    (signLoop putOk ([JVal.jstr "a"] ++ JVal.jnull :: [JVal.jstr "b"]) =
        signLoop putOk ([JVal.jstr "a"] ++ [JVal.jstr "b"]) ∧
      infoLoop metaOk ([JVal.jstr "a"] ++ JVal.jnull :: [JVal.jstr "b"]) =
        infoLoop metaOk ([JVal.jstr "a"] ++ [JVal.jstr "b"])) :=
  ⟨rfl, ask_invalid_entries_skipped putOk metaOk JVal.jnull _ _ rfl⟩

/-- C1: on a successful downstream exchange whose `pages_used` coerces to
a list, `call_gpu_backend` returns the downstream body unchanged except
for the two added fields; each field is the in-order `filterMap` of the
valid keys through its resolver, so one key's failure only omits that key
and the overall call still succeeds with the downstream answer. -/
theorem ask_enrichment_best_effort (u : String)
    (post : GpuPayload → Except String HttpResp)
    (sign : String → Except String String)
    (readMeta : String → Except String (List (String × String)))
    (conv human : String) (d : Option String)
    (resp : HttpResp) (body : Body) (xs : List JVal)
    (hpost : post (mkGpuPayload conv human d) = .ok resp)
    (hst : resp.status < 400)
    (hjson : resp.jsonBody = .ok body)
    (hlist : coercePagesUsed body.pages_used = .jlist xs) :
    call_gpu_backend (some u) post sign readMeta conv human d =
      .ok { body with
            page_image_urls :=
              some ((validKeys xs).filterMap fun k => (sign k).toOption)
            page_info := some ((validKeys xs).filterMap (infoOf readMeta)) } := by
  unfold call_gpu_backend
  rw [hpost]
  simp only
  rw [if_neg (by omega), hjson]
  simp only
  unfold enrich
  rw [hlist]
  simp only
  rw [signLoop_eq_filterMap, infoLoop_eq_filterMap]

/-- Downstream body used by the C1 witness: one signable key, one null
entry, one key whose signing fails but whose metadata resolves. -/
def bodyW : Body :=
  ⟨"the answer", none,
   some (.jlist [JVal.jstr "k1", JVal.jnull, JVal.jstr "k2"]),
   none, none⟩

/-- A signer that succeeds on `k1` only. -/
def signK1 : String → Except String String :=
  fun k => if k = "k1" then .ok "url1" else .error "sign failed"

/-- A network oracle returning `bodyW` with status 200. -/
def postW : GpuPayload → Except String HttpResp :=
  fun _ => .ok ⟨200, .ok bodyW⟩

/-- Witness for C1: the failing key `k2` is dropped from the URL list but
keeps its metadata entry; `k1` signs; the answer text is preserved. -/
theorem ask_enrichment_best_effort_witness :
    call_gpu_backend (some "u") postW signK1 metaOk "c" "h" none =
      .ok { bodyW with
            page_image_urls :=
              some ((validKeys [JVal.jstr "k1", JVal.jnull, JVal.jstr "k2"]).filterMap
                fun k => (signK1 k).toOption)
            page_info :=
              some ((validKeys [JVal.jstr "k1", JVal.jnull, JVal.jstr "k2"]).filterMap
                (infoOf metaOk)) } :=
  ask_enrichment_best_effort "u" postW signK1 metaOk "c" "h" none
    ⟨200, .ok bodyW⟩ bodyW _ rfl (by decide) rfl rfl

/-- C8: with a downstream endpoint configured, any transport failure,
non-success status, or JSON-decoding failure of the downstream call makes
`ask` fail with `HTTPException(502, "GPU backend error: <cause>")`; the
stub answer is never substituted. -/
theorem ask_downstream_failure_502 (u : String)
    (post : GpuPayload → Except String HttpResp)
    (sign : String → Except String String)
    (readMeta : String → Except String (List (String × String)))
    (conv human : String) (d : Option String) (msg : String)
    (h : gpuFailure (post (mkGpuPayload conv human d)) = some msg) :
    call_gpu_backend (some u) post sign readMeta conv human d =
      .error (.httpError 502 ("GPU backend error: " ++ msg)) := by
  unfold call_gpu_backend
  unfold gpuFailure at h
  cases hp : post (mkGpuPayload conv human d) with
  | error e =>
    simp only [hp, Option.some.injEq] at h
    simp only [hp, h]
  | ok resp =>
    simp only [hp] at h
    simp only [hp]
    by_cases hs : 400 ≤ resp.status
    · rw [if_pos hs] at h
      simp only [Option.some.injEq] at h
      rw [if_pos hs, h]
    · rw [if_neg hs] at h
      rw [if_neg hs]
      cases hj : resp.jsonBody with
      | error e =>
        rw [hj] at h
        simp only [Option.some.injEq] at h
        rw [h]
      | ok b =>
        rw [hj] at h
        simp at h

/-- Witness for C8: an unreachable downstream endpoint yields the 502. -/
theorem ask_downstream_failure_502_witness :
    gpuFailure (postFail (mkGpuPayload "c" "h" none)) = some "down" ∧
    call_gpu_backend (some "u") postFail putOk metaOk "c" "h" none =
      .error (.httpError 502 ("GPU backend error: " ++ "down")) :=
  ⟨rfl, ask_downstream_failure_502 "u" postFail putOk metaOk "c" "h" none
    "down" rfl⟩

/-! ## Binary64 lemmas for the OCR upscale -/

theorem log2fuel_le (fuel : Nat) :
    ∀ n, n ≠ 0 → n ≤ fuel → 2 ^ log2fuel fuel n ≤ n := by
  induction fuel with
  | zero => intro n h0 hle; omega
  | succ f ih =>
    intro n h0 hle
    unfold log2fuel
    by_cases h2 : 2 ≤ n
    · rw [if_pos h2]
      have hrec := ih (n / 2) (by omega) (by omega)
      rw [pow_succ]
      omega
    · rw [if_neg h2]
      simpa using by omega

theorem rneDiv_err (a b : Nat) (hb : 0 < b) (hab : b ≤ a)
    (hab2 : a ≤ 2 ^ 52 * b) :
    |rneVal a b - (a : ℚ) / b| ≤ ((a : ℚ) / b) / 2 ^ 53 := by
  have hdiv1 : 1 ≤ a / b := (Nat.one_le_div_iff hb).mpr hab
  have hdiv52 : a / b ≤ 2 ^ 52 := by
    have h := Nat.div_le_div_right (c := b) hab2
    rwa [Nat.mul_div_cancel _ hb] at h
  have h2e : 2 ^ natLog2 (a / b) ≤ a / b := by
    unfold natLog2
    exact log2fuel_le _ _ (by omega) le_rfl
  have he52 : natLog2 (a / b) ≤ 52 := by
    by_contra hgt
    push_neg at hgt
    have hp1 : (2 : Nat) ^ 53 ≤ 2 ^ natLog2 (a / b) :=
      Nat.pow_le_pow_right (by norm_num) hgt
    have hp2 : (2 : Nat) ^ 53 ≤ 2 ^ 52 := le_trans hp1 (le_trans h2e hdiv52)
    norm_num at hp2
  set e := natLog2 (a / b) with he
  set E := 52 - e with hE
  set num := a * 2 ^ E with hnum
  set m0 := num / b with hm0
  set r := num % b with hr
  have hsnd : (rneDiv a b).2 = E := rfl
  have hfst : (rneDiv a b).1 =
      (if 2 * r < b then m0 else if b < 2 * r then m0 + 1
       else if m0 % 2 = 0 then m0 else m0 + 1) := rfl
  have hmodeq : b * m0 + r = num := Nat.div_add_mod num b
  have hrb : r < b := Nat.mod_lt _ hb
  have hbQ : (0 : ℚ) < (b : ℚ) := by exact_mod_cast hb
  have hnumQ : (num : ℚ) = (b : ℚ) * m0 + r := by exact_mod_cast hmodeq.symm
  have hxeq : (num : ℚ) / b = (m0 : ℚ) + (r : ℚ) / b := by
    rw [hnumQ]
    field_simp
    ring
  have hmx : |((rneDiv a b).1 : ℚ) - (num : ℚ) / b| ≤ 1 / 2 := by
    rw [hfst, hxeq]
    by_cases hc1 : 2 * r < b
    · rw [if_pos hc1]
      have hc1Q : (r : ℚ) / b < 1 / 2 := by
        rw [div_lt_div_iff hbQ (by norm_num)]
        exact_mod_cast (show r * 2 < 1 * b by omega)
      have hr0 : (0 : ℚ) ≤ (r : ℚ) / b := by positivity
      rw [abs_le]
      constructor <;> linarith
    · rw [if_neg hc1]
      push_neg at hc1
      have hc1Q : 1 / 2 ≤ (r : ℚ) / b := by
        rw [div_le_div_iff (by norm_num) hbQ]
        exact_mod_cast (show 1 * b ≤ r * 2 by omega)
      have hrQlt : (r : ℚ) / b < 1 := by
        rw [div_lt_one hbQ]
        exact_mod_cast hrb
      by_cases hc2 : b < 2 * r
      · rw [if_pos hc2]
        rw [abs_le]
        push_cast
        constructor <;> linarith
      · rw [if_neg hc2]
        have htie : (r : ℚ) / b = 1 / 2 := by
          rw [div_eq_div_iff hbQ.ne' (by norm_num : (2 : ℚ) ≠ 0)]
          exact_mod_cast (show r * 2 = 1 * b by omega)
        by_cases hc3 : m0 % 2 = 0
        · rw [if_pos hc3]
          rw [abs_le]
          constructor <;> linarith
        · rw [if_neg hc3]
          rw [abs_le]
          push_cast
          constructor <;> linarith
  have hEposQ : (0 : ℚ) < (2 : ℚ) ^ E := by positivity
  have hxab : (num : ℚ) / b / 2 ^ E = (a : ℚ) / b := by
    rw [hnum]
    push_cast
    field_simp
    ring
  have hdiff : rneVal a b - (a : ℚ) / b =
      (((rneDiv a b).1 : ℚ) - (num : ℚ) / b) / 2 ^ E := by
    rw [rneVal, hsnd, ← hxab]
    field_simp
    ring
  rw [hdiff, abs_div, abs_of_pos hEposQ,
    div_le_div_iff hEposQ (by positivity : (0 : ℚ) < 2 ^ 53)]
  have habQ : (2 : ℚ) ^ e ≤ (a : ℚ) / b := by
    have hnatle : ((a / b : Nat) : ℚ) ≤ (a : ℚ) / b := by
      rw [le_div_iff hbQ]
      exact_mod_cast Nat.div_mul_le_self a b
    calc (2 : ℚ) ^ e = ((2 ^ e : Nat) : ℚ) := by push_cast; ring
      _ ≤ ((a / b : Nat) : ℚ) := by exact_mod_cast h2e
      _ ≤ (a : ℚ) / b := hnatle
  have hpowsum : (2 : ℚ) ^ e * 2 ^ E = 2 ^ 52 := by
    rw [← pow_add]
    congr 1
    omega
  calc |((rneDiv a b).1 : ℚ) - (num : ℚ) / b| * 2 ^ 53
      ≤ (1 / 2) * 2 ^ 53 :=
        mul_le_mul_of_nonneg_right hmx (by positivity)
    _ = (2 : ℚ) ^ 52 := by norm_num
    _ = (2 : ℚ) ^ e * 2 ^ E := hpowsum.symm
    _ ≤ ((a : ℚ) / b) * 2 ^ E :=
        mul_le_mul_of_nonneg_right habQ (by positivity)

theorem pyResizeDim_bounds (w mx : Nat) (h1 : 1 ≤ w) (h2 : w ≤ mx)
    (h3 : mx ≤ 1599) :
    pyResizeDim w mx ≤ 1600 ∧ (w = mx → 1599 ≤ pyResizeDim w mx) := by
  have hmx1 : 1 ≤ mx := le_trans h1 h2
  have hmxQ : (1 : ℚ) ≤ (mx : ℚ) := by exact_mod_cast hmx1
  have hmxQ2 : (mx : ℚ) ≤ 1599 := by exact_mod_cast h3
  have hmxpos : (0 : ℚ) < (mx : ℚ) := by linarith
  have herrS := rneDiv_err 1600 mx (by omega) (by omega)
    (by have := Nat.mul_le_mul_left (2 ^ 52) hmx1; omega)
  rw [abs_le] at herrS
  push_cast at herrS
  set qc : ℚ := 1600 / (mx : ℚ) with hqc
  have hqc1 : (1 : ℚ) ≤ qc := by
    rw [hqc, le_div_iff hmxpos]
    linarith
  have hqc1600 : qc ≤ 1600 := by
    rw [hqc, div_le_iff hmxpos]
    nlinarith
  have hqclow : (1600 / 1599 : ℚ) ≤ qc := by
    rw [hqc, div_le_div_iff (by norm_num) hmxpos]
    linarith
  have hsU : rneVal 1600 mx ≤ qc + qc / 2 ^ 53 := by linarith [herrS.2]
  have hsL : qc - qc / 2 ^ 53 ≤ rneVal 1600 mx := by linarith [herrS.1]
  have hs1 : (1 : ℚ) < rneVal 1600 mx := by linarith
  have hmxqc : (mx : ℚ) * qc = 1600 := by
    rw [hqc]
    field_simp
  set sm := (rneDiv 1600 mx).1 with hsm
  set sE := (rneDiv 1600 mx).2 with hsE
  have hsval : rneVal 1600 mx = (sm : ℚ) / 2 ^ sE := rfl
  have h2sEpos : (0 : ℚ) < (2 : ℚ) ^ sE := by positivity
  have hwQ1 : (1 : ℚ) ≤ (w : ℚ) := by exact_mod_cast h1
  have hwQmx : (w : ℚ) ≤ (mx : ℚ) := by exact_mod_cast h2
  have hsvalpos : (0 : ℚ) < (sm : ℚ) / 2 ^ sE := by
    rw [← hsval]; linarith
  have hprod_ge1 : (1 : ℚ) ≤ (w : ℚ) * sm / 2 ^ sE := by
    rw [mul_div_assoc]
    rw [hsval] at hs1
    nlinarith
  have hprodU : (w : ℚ) * sm / 2 ^ sE ≤ 1600 + 1600 / 2 ^ 53 := by
    rw [mul_div_assoc]
    have hstep : (w : ℚ) * ((sm : ℚ) / 2 ^ sE) ≤ (mx : ℚ) * ((sm : ℚ) / 2 ^ sE) :=
      mul_le_mul_of_nonneg_right hwQmx hsvalpos.le
    have hstep2 : (mx : ℚ) * ((sm : ℚ) / 2 ^ sE) ≤ (mx : ℚ) * (qc + qc / 2 ^ 53) := by
      apply mul_le_mul_of_nonneg_left _ (by positivity)
      rw [← hsval]
      exact hsU
    have hexp : (mx : ℚ) * (qc + qc / 2 ^ 53) = 1600 + 1600 / 2 ^ 53 := by
      have hh : (mx : ℚ) * (qc + qc / 2 ^ 53) = (mx * qc) + (mx * qc) / 2 ^ 53 := by
        ring
      rw [hh, hmxqc]
    linarith
  have hb2 : 0 < 2 ^ sE := Nat.pow_pos (by norm_num)
  have hab_2 : 2 ^ sE ≤ w * sm := by
    have h' : ((2 : ℚ) ^ sE) ≤ (w : ℚ) * sm := by
      have hgt := (le_div_iff h2sEpos).mp hprod_ge1
      linarith
    exact_mod_cast h'
  have hab2_2 : w * sm ≤ 2 ^ 52 * 2 ^ sE := by
    have h' : (w : ℚ) * sm ≤ 2 ^ 52 * 2 ^ sE := by
      have hle : (w : ℚ) * sm / 2 ^ sE ≤ 2 ^ 52 := le_trans hprodU (by norm_num)
      have := (div_le_iff h2sEpos).mp hle
      linarith
    exact_mod_cast h'
  have herrT := rneDiv_err (w * sm) (2 ^ sE) hb2 hab_2 hab2_2
  rw [abs_le] at herrT
  push_cast at herrT
  set tv := rneVal (w * sm) (2 ^ sE) with htv
  have htx_ge0 : (0 : ℚ) ≤ (w : ℚ) * sm / 2 ^ sE := by positivity
  have htvU : tv < 1601 := by
    have h2' := herrT.2
    linarith
  have hpy : pyResizeDim w mx =
      (rneDiv (w * sm) (2 ^ sE)).1 / 2 ^ (rneDiv (w * sm) (2 ^ sE)).2 := by
    rw [pyResizeDim, if_neg (show ¬ w = 0 by omega)]
  set T1 := (rneDiv (w * sm) (2 ^ sE)).1 with hT1
  set T2 := (rneDiv (w * sm) (2 ^ sE)).2 with hT2
  have htval : tv = (T1 : ℚ) / 2 ^ T2 := rfl
  have hT2pos : (0 : Nat) < 2 ^ T2 := Nat.pow_pos (by norm_num)
  have hT2posQ : (0 : ℚ) < (2 : ℚ) ^ T2 := by positivity
  constructor
  · rw [hpy]
    have hq : (T1 : ℚ) < 1601 * 2 ^ T2 := by
      rw [htval] at htvU
      exact (div_lt_iff hT2posQ).mp htvU
    have hnat : T1 < 1601 * 2 ^ T2 := by exact_mod_cast hq
    have := (Nat.div_lt_iff_lt_mul hT2pos).mpr hnat
    omega
  · intro hwmx
    subst hwmx
    have hstep2L : (w : ℚ) * (qc - qc / 2 ^ 53) ≤ (w : ℚ) * ((sm : ℚ) / 2 ^ sE) := by
      apply mul_le_mul_of_nonneg_left _ (by positivity)
      rw [← hsval]
      exact hsL
    have hexp2 : (w : ℚ) * (qc - qc / 2 ^ 53) = 1600 - 1600 / 2 ^ 53 := by
      have hh : (w : ℚ) * (qc - qc / 2 ^ 53) = (w * qc) - (w * qc) / 2 ^ 53 := by
        ring
      rw [hh, hmxqc]
    have htxL : 1600 - 1600 / 2 ^ 53 ≤ (w : ℚ) * sm / 2 ^ sE := by
      rw [mul_div_assoc]
      linarith
    have htvL : (1599 : ℚ) < tv := by
      have h1' := herrT.1
      linarith
    rw [hpy]
    have hq : (1599 : ℚ) * 2 ^ T2 ≤ (T1 : ℚ) := by
      rw [htval] at htvL
      have := (lt_div_iff hT2posQ).mp htvL
      linarith
    have hnat : 1599 * 2 ^ T2 ≤ T1 := by exact_mod_cast hq
    exact (Nat.le_div_iff_mul_le hT2pos).mpr hnat

theorem pyResizeDim_le (w mx : Nat) (h2 : w ≤ mx) (h3 : mx ≤ 1599)
    (_hmx : 1 ≤ mx) : pyResizeDim w mx ≤ 1600 := by
  rcases Nat.eq_zero_or_pos w with h0 | h1
  · subst h0
    simp [pyResizeDim]
  · exact (pyResizeDim_bounds w mx h1 h2 h3).1

theorem pyResizeDim_self_ge (mx : Nat) (hmx : 1 ≤ mx) (h3 : mx ≤ 1599) :
    1599 ≤ pyResizeDim mx mx :=
  (pyResizeDim_bounds mx mx hmx le_rfl h3).2 rfl

/-- Counterexample to C7 as stated: a 97 by 97 image is below the 1600
threshold, yet upscaling lands at 1599 by 1599 — binary64 rounding of
`97 * (1600.0 / 97)` falls just below 1600, so the larger dimension does
not reach 1600. -/
theorem ocr_upscale_counterexample :
    max (97 : Nat) 97 < 1600 ∧
    preprocessForOcr ⟨97, 97, "L"⟩ = ⟨1599, 1599, "RGB"⟩ ∧
    max (preprocessForOcr ⟨97, 97, "L"⟩).width
      (preprocessForOcr ⟨97, 97, "L"⟩).height < 1600 :=
  ⟨by norm_num, by decide, by decide⟩

/-- C7 (amended): OCR preprocessing converts to RGB first; an image whose
larger dimension is positive and below 1600 has both dimensions scaled by
the same binary64 factor `1600.0 / max w h` (each product rounded to
binary64 and truncated), after which the larger dimension is 1599 or 1600
— it can fall one pixel short of the 1600 threshold; an image already at
or above 1600 keeps its dimensions. -/
theorem ocr_preprocess_rgb_upscale_float (img : Image)
    (hpos : 0 < max img.width img.height) :
    (preprocessForOcr img).mode = "RGB" ∧
    (max img.width img.height < 1600 →
      preprocessForOcr img =
        ⟨pyResizeDim img.width (max img.width img.height),
         pyResizeDim img.height (max img.width img.height), "RGB"⟩ ∧
      1599 ≤ max (preprocessForOcr img).width (preprocessForOcr img).height ∧
      max (preprocessForOcr img).width (preprocessForOcr img).height ≤ 1600) ∧
    (1600 ≤ max img.width img.height →
      preprocessForOcr img = ⟨img.width, img.height, "RGB"⟩) := by
  unfold preprocessForOcr convertMode resizeImg
  simp only
  by_cases hlt : max img.width img.height < 1600
  · rw [if_pos hlt]
    refine ⟨rfl, fun _ => ⟨rfl, ?_, ?_⟩, fun hge => absurd hlt (by omega)⟩
    · rcases Nat.le_total img.width img.height with hle | hle
      · rw [Nat.max_eq_right hle] at hpos hlt ⊢
        calc (1599 : Nat)
            ≤ pyResizeDim img.height img.height :=
              pyResizeDim_self_ge img.height (by omega) (by omega)
          _ ≤ max (pyResizeDim img.width img.height)
                (pyResizeDim img.height img.height) := le_max_right _ _
      · rw [Nat.max_eq_left hle] at hpos hlt ⊢
        calc (1599 : Nat)
            ≤ pyResizeDim img.width img.width :=
              pyResizeDim_self_ge img.width (by omega) (by omega)
          _ ≤ max (pyResizeDim img.width img.width)
                (pyResizeDim img.height img.width) := le_max_left _ _
    · rcases Nat.le_total img.width img.height with hle | hle
      · rw [Nat.max_eq_right hle] at hpos hlt ⊢
        exact max_le
          (pyResizeDim_le img.width img.height hle (by omega) (by omega))
          (pyResizeDim_le img.height img.height le_rfl (by omega) (by omega))
      · rw [Nat.max_eq_left hle] at hpos hlt ⊢
        exact max_le
          (pyResizeDim_le img.width img.width le_rfl (by omega) (by omega))
          (pyResizeDim_le img.height img.width hle (by omega) (by omega))
  · rw [if_neg hlt]
    exact ⟨rfl, fun hlt2 => absurd hlt2 hlt, fun _ => rfl⟩

/-- Witness for the amended C7: a 100 by 50 image upscales exactly to
1600 by 800 in RGB (the factor 16 is exact in binary64), and the larger
dimension is within the proved [1599, 1600] band. -/
theorem ocr_preprocess_rgb_upscale_float_witness :
    0 < max (100 : Nat) 50 ∧
    preprocessForOcr ⟨100, 50, "L"⟩ = ⟨1600, 800, "RGB"⟩ ∧
    1599 ≤ max (preprocessForOcr ⟨100, 50, "L"⟩).width
      (preprocessForOcr ⟨100, 50, "L"⟩).height :=
  ⟨by decide,
   by
    have h := (ocr_preprocess_rgb_upscale_float ⟨100, 50, "L"⟩
      (by decide)).2.1 (by decide)
    exact h.1.trans (by decide),
   by
    exact ((ocr_preprocess_rgb_upscale_float ⟨100, 50, "L"⟩
      (by decide)).2.1 (by decide)).2.1⟩

/-! ## Pipeline lemmas -/

theorem imageKeysOf_cons_img (k ct : String) (md : List (String × String))
    (tx : Option String) (l : List Upload) :
    imageKeysOf (⟨k, .pageImage, ct, md, tx⟩ :: l) = k :: imageKeysOf l := rfl

theorem imageKeysOf_cons_txt (k ct : String) (md : List (String × String))
    (tx : Option String) (l : List Upload) :
    imageKeysOf (⟨k, .pageText, ct, md, tx⟩ :: l) = imageKeysOf l := rfl

theorem imageKeysOf_cons_pdf (k ct : String) (md : List (String × String))
    (tx : Option String) (l : List Upload) :
    imageKeysOf (⟨k, .pdf, ct, md, tx⟩ :: l) = imageKeysOf l := rfl

theorem textKeysOf_cons_img (k ct : String) (md : List (String × String))
    (tx : Option String) (l : List Upload) :
    textKeysOf (⟨k, .pageImage, ct, md, tx⟩ :: l) = textKeysOf l := rfl

theorem textKeysOf_cons_txt (k ct : String) (md : List (String × String))
    (tx : Option String) (l : List Upload) :
    textKeysOf (⟨k, .pageText, ct, md, tx⟩ :: l) = k :: textKeysOf l := rfl

theorem textKeysOf_cons_pdf (k ct : String) (md : List (String × String))
    (tx : Option String) (l : List Upload) :
    textKeysOf (⟨k, .pdf, ct, md, tx⟩ :: l) = textKeysOf l := rfl

theorem processPages_nil (env : Env) (c d pk sn : String) (i : Nat) :
    processPages env c d pk sn [] i = ([], none) := rfl

theorem processPages_cons_fail (env : Env) (c d pk sn : String)
    (img : Image) (rest : List Image) (i : Nat) (e : String)
    (h : env.put (imgKeyOf c d i) = .error e) :
    processPages env c d pk sn (img :: rest) i = ([], some (.exn e)) := by
  simp only [processPages, h]

theorem processPages_cons_ok (env : Env) (c d pk sn : String)
    (img : Image) (rest : List Image) (i : Nat) (u : String)
    (h : env.put (imgKeyOf c d i) = .ok u) :
    processPages env c d pk sn (img :: rest) i =
      (⟨imgKeyOf c d i, .pageImage, "image/png", pageMeta c d i pk sn, none⟩ ::
        ((match env.put (txtKeyOf c d i) with
          | .ok _ =>
            [⟨txtKeyOf c d i, .pageText, "text/plain; charset=utf-8",
              txtMetaOf env (pageMeta c d i pk sn) (imgKeyOf c d i),
              some (match ocr_image_to_text env.ocr img with
                    | .ok t => t
                    | .error _ => "")⟩]
          | .error _ => []) ++
          (processPages env c d pk sn rest (i + 1)).1),
        (processPages env c d pk sn rest (i + 1)).2) := by
  simp only [processPages, h]

theorem processPages_snd_none (env : Env) (c d pk sn : String)
    (pages : List Image) (i : Nat)
    (h : ∀ m, m < pages.length → ∃ u, env.put (imgKeyOf c d (i + m)) = .ok u) :
    (processPages env c d pk sn pages i).2 = none := by
  induction pages generalizing i with
  | nil => rfl
  | cons img rest ih =>
    obtain ⟨u, hu⟩ := h 0 (by simp)
    rw [Nat.add_zero] at hu
    rw [processPages_cons_ok env c d pk sn img rest i u hu]
    exact ih (i + 1) (fun m hm => by
      obtain ⟨u', hu'⟩ := h (m + 1) (by simpa using Nat.succ_lt_succ hm)
      refine ⟨u', ?_⟩
      have hidx : i + 1 + m = i + (m + 1) := by omega
      rw [hidx]
      exact hu')

theorem processPages_snd_err (env : Env) (c d pk sn : String)
    (pre : List Image) (img : Image) (rest : List Image) (i : Nat) (e : String)
    (hok : ∀ m, m < pre.length → ∃ u, env.put (imgKeyOf c d (i + m)) = .ok u)
    (hfail : env.put (imgKeyOf c d (i + pre.length)) = .error e) :
    (processPages env c d pk sn (pre ++ img :: rest) i).2 = some (.exn e) := by
  induction pre generalizing i with
  | nil =>
    rw [List.length_nil, Nat.add_zero] at hfail
    rw [List.nil_append,
      processPages_cons_fail env c d pk sn img rest i e hfail]
  | cons p ps ih =>
    obtain ⟨u, hu⟩ := hok 0 (by simp)
    rw [Nat.add_zero] at hu
    rw [List.cons_append,
      processPages_cons_ok env c d pk sn p (ps ++ img :: rest) i u hu]
    refine ih (i + 1) (fun m hm => ?_) ?_
    · obtain ⟨u', hu'⟩ := hok (m + 1) (by simpa using Nat.succ_lt_succ hm)
      refine ⟨u', ?_⟩
      have hidx : i + 1 + m = i + (m + 1) := by omega
      rw [hidx]
      exact hu'
    · have hidx : i + 1 + ps.length = i + (ps.length + 1) := by omega
      rw [hidx]
      simpa using hfail

theorem processPages_keys (env : Env) (c d pk sn : String)
    (pages : List Image) (i : Nat)
    (h : (processPages env c d pk sn pages i).2 = none) :
    imageKeysOf (processPages env c d pk sn pages i).1 =
      (List.range pages.length).map (fun j => imgKeyOf c d (i + j)) ∧
    (textKeysOf (processPages env c d pk sn pages i).1).Sublist
      ((List.range pages.length).map fun j => txtKeyOf c d (i + j)) := by
  induction pages generalizing i with
  | nil => exact ⟨rfl, by simp [processPages_nil, textKeysOf]⟩
  | cons img rest ih =>
    have himgfun : (fun j => imgKeyOf c d (i + 1 + j)) =
        fun j => imgKeyOf c d (i + (j + 1)) := by
      funext j
      rw [Nat.add_assoc, Nat.add_comm 1 j]
    have htxtfun : (fun j => txtKeyOf c d (i + 1 + j)) =
        fun j => txtKeyOf c d (i + (j + 1)) := by
      funext j
      rw [Nat.add_assoc, Nat.add_comm 1 j]
    cases hu : env.put (imgKeyOf c d i) with
    | error e =>
      rw [processPages_cons_fail env c d pk sn img rest i e hu] at h
      exact absurd h (by simp)
    | ok u =>
      rw [processPages_cons_ok env c d pk sn img rest i u hu] at h ⊢
      obtain ⟨ih1, ih2⟩ := ih (i + 1) h
      cases htu : env.put (txtKeyOf c d i) with
      | ok u' =>
        simp only [htu, List.singleton_append]
        constructor
        · rw [imageKeysOf_cons_img, imageKeysOf_cons_txt, ih1, himgfun,
            List.length_cons, List.range_succ_eq_map, List.map_cons,
            List.map_map, Nat.add_zero]
          rfl
        · rw [textKeysOf_cons_img, textKeysOf_cons_txt,
            List.length_cons, List.range_succ_eq_map, List.map_cons,
            List.map_map, Nat.add_zero]
          refine List.Sublist.cons₂ _ ?_
          have hcomp : ((fun j => txtKeyOf c d (i + j)) ∘ Nat.succ) =
              fun j => txtKeyOf c d (i + 1 + j) := by
            funext j
            simp only [Function.comp]
            congr 1
            omega
          rw [hcomp]
          exact ih2
      | error e' =>
        simp only [htu, List.nil_append]
        constructor
        · rw [imageKeysOf_cons_img, ih1, himgfun,
            List.length_cons, List.range_succ_eq_map, List.map_cons,
            List.map_map, Nat.add_zero]
          rfl
        · rw [textKeysOf_cons_img,
            List.length_cons, List.range_succ_eq_map, List.map_cons,
            List.map_map, Nat.add_zero]
          refine List.Sublist.cons _ ?_
          have hcomp : ((fun j => txtKeyOf c d (i + j)) ∘ Nat.succ) =
              fun j => txtKeyOf c d (i + 1 + j) := by
            funext j
            simp only [Function.comp]
            congr 1
            omega
          rw [hcomp]
          exact ih2

theorem process_ok_inversion (env : Env) (conv : String)
    (rr : Except String Bytes) (fn doc : String)
    (ups : List Upload) (r : PdfResult)
    (h : process_pdf_to_gcs env conv rr fn doc = (ups, .ok r)) :
    ∃ raw pages,
      rr = .ok raw ∧ raw.isEmpty = false ∧ env.render raw = .ok pages ∧
      (processPages env (convOf conv) doc
        (pdfKeyOf (convOf conv) doc) fn pages 1).2 = none ∧
      ups = ⟨pdfKeyOf (convOf conv) doc, .pdf, "application/pdf",
             [("original_filename", fn), ("conversation_id", convOf conv),
              ("doc_id", doc), ("uploaded_at", env.now)], none⟩ ::
            (processPages env (convOf conv) doc
              (pdfKeyOf (convOf conv) doc) fn pages 1).1 ∧
      r = ⟨convOf conv, doc, pdfKeyOf (convOf conv) doc, pages.length⟩ := by
  cases rr with
  | error e => simp [process_pdf_to_gcs] at h
  | ok raw =>
    cases hraw : raw.isEmpty with
    | true => simp [process_pdf_to_gcs, hraw] at h
    | false =>
      cases hpdf : env.put (pdfKeyOf (convOf conv) doc) with
      | error e => simp [process_pdf_to_gcs, hraw, hpdf] at h
      | ok u =>
        cases hrender : env.render raw with
        | error e => simp [process_pdf_to_gcs, hraw, hpdf, hrender] at h
        | ok pages =>
          cases hloop : (processPages env (convOf conv) doc
              (pdfKeyOf (convOf conv) doc) fn pages 1).2 with
          | some err =>
            simp [process_pdf_to_gcs, hraw, hpdf, hrender, hloop] at h
          | none =>
            simp only [process_pdf_to_gcs, hraw, hpdf, hrender, hloop,
              Bool.false_eq_true, if_false, Prod.mk.injEq] at h
            exact ⟨raw, pages, rfl, hraw, hrender, hloop, h.1.symm,
              by cases h.2; rfl⟩

/-- A blob store failing exactly on the first page-image key of doc `d1`
in conversation `c`. -/
def imgFailPut : String → Except String String :=
  fun k => if k = imgKeyOf "c" "d1" 1 then .error "img upload failed"
    else .ok "u"

/-- Environment whose page-1 image upload fails. -/
def envImgFail : Env :=
  ⟨imgFailPut, ocrFail, fun _ => .ok [⟨10, 10, "RGB"⟩], "5", "eng", "t"⟩

/-- Environment rendering two pages, with failing OCR and a blob store
that always succeeds. -/
def envTwoPages : Env :=
  ⟨putOk, ocrFail, fun _ => .ok [⟨10, 10, "RGB"⟩, ⟨20, 20, "RGB"⟩],
   "5", "eng", "t"⟩

/-- C2: the per-page failure policy of ingestion.  First conjunct: a
page-image upload failure is not caught — the pipeline's result is that
exception, aborting the document.  Second conjunct: an OCR failure on a
page is substituted by an empty text artifact and the loop continues with
the remaining pages.  Third conjunct: whenever every page-image upload
succeeds, ingestion returns the full page count for every recognizer and
every text-upload behaviour, so OCR and text-upload failures never abort
the document. -/
theorem ingest_failure_policy :
    (∀ (env : Env) (conv : String) (rr : Except String Bytes) (fn doc : String)
        (raw : Bytes) (pre : List Image) (img : Image) (rest : List Image)
        (e : String),
      rr = .ok raw → raw.isEmpty = false →
      (∃ u, env.put (pdfKeyOf (convOf conv) doc) = .ok u) →
      env.render raw = .ok (pre ++ img :: rest) →
      (∀ m, m < pre.length →
        ∃ u, env.put (imgKeyOf (convOf conv) doc (1 + m)) = .ok u) →
      env.put (imgKeyOf (convOf conv) doc (1 + pre.length)) = .error e →
      (process_pdf_to_gcs env conv rr fn doc).2 = .error (.exn e)) ∧
    (∀ (env : Env) (c d pk sn : String) (img : Image) (rest : List Image)
        (i : Nat) (u u' e : String),
      env.put (imgKeyOf c d i) = .ok u →
      ocr_image_to_text env.ocr img = .error e →
      env.put (txtKeyOf c d i) = .ok u' →
      processPages env c d pk sn (img :: rest) i =
        (⟨imgKeyOf c d i, .pageImage, "image/png",
            pageMeta c d i pk sn, none⟩ ::
         ⟨txtKeyOf c d i, .pageText, "text/plain; charset=utf-8",
            txtMetaOf env (pageMeta c d i pk sn) (imgKeyOf c d i),
            some ""⟩ ::
         (processPages env c d pk sn rest (i + 1)).1,
         (processPages env c d pk sn rest (i + 1)).2)) ∧
    (∀ (env : Env) (conv : String) (rr : Except String Bytes) (fn doc : String)
        (raw : Bytes) (pages : List Image),
      rr = .ok raw → raw.isEmpty = false →
      (∃ u, env.put (pdfKeyOf (convOf conv) doc) = .ok u) →
      env.render raw = .ok pages →
      (∀ m, m < pages.length →
        ∃ u, env.put (imgKeyOf (convOf conv) doc (1 + m)) = .ok u) →
      (process_pdf_to_gcs env conv rr fn doc).2 =
        .ok ⟨convOf conv, doc, pdfKeyOf (convOf conv) doc, pages.length⟩) := by
  refine ⟨?_, ?_, ?_⟩
  · intro env conv rr fn doc raw pre img rest e hrr hraw hpdf hrender hok hfail
    subst hrr
    obtain ⟨u, hpdf⟩ := hpdf
    have hsnd := processPages_snd_err env (convOf conv) doc
      (pdfKeyOf (convOf conv) doc) fn pre img rest 1 e hok hfail
    simp [process_pdf_to_gcs, hraw, hpdf, hrender, hsnd]
  · intro env c d pk sn img rest i u u' e himg hocr htxt
    rw [processPages_cons_ok env c d pk sn img rest i u himg]
    simp only [htxt, hocr, List.singleton_append]
  · intro env conv rr fn doc raw pages hrr hraw hpdf hrender hok
    subst hrr
    obtain ⟨u, hpdf⟩ := hpdf
    have hsnd := processPages_snd_none env (convOf conv) doc
      (pdfKeyOf (convOf conv) doc) fn pages 1 hok
    simp [process_pdf_to_gcs, hraw, hpdf, hrender, hsnd]

/-- Witness for C2: all three conjuncts at concrete environments — an
aborted one-page document, an empty-text substitution, and a completed
two-page document with failing OCR. -/
theorem ingest_failure_policy_witness :
    (process_pdf_to_gcs envImgFail "c" (.ok [1]) "f.pdf" "d1").2 =
      .error (.exn "img upload failed") ∧
    processPages envTwoPages "c" "d" "pk" "f.pdf" [⟨10, 10, "RGB"⟩] 1 =
      (⟨imgKeyOf "c" "d" 1, .pageImage, "image/png",
          pageMeta "c" "d" 1 "pk" "f.pdf", none⟩ ::
       ⟨txtKeyOf "c" "d" 1, .pageText, "text/plain; charset=utf-8",
          txtMetaOf envTwoPages (pageMeta "c" "d" 1 "pk" "f.pdf")
            (imgKeyOf "c" "d" 1), some ""⟩ ::
       (processPages envTwoPages "c" "d" "pk" "f.pdf" [] 2).1,
       (processPages envTwoPages "c" "d" "pk" "f.pdf" [] 2).2) ∧
    (process_pdf_to_gcs envTwoPages "c" (.ok [1]) "f.pdf" "d123").2 =
      .ok ⟨convOf "c", "d123", pdfKeyOf (convOf "c") "d123", 2⟩ :=
  ⟨ingest_failure_policy.1 envImgFail "c" (.ok [1]) "f.pdf" "d1" [1] []
      ⟨10, 10, "RGB"⟩ [] "img upload failed" rfl rfl ⟨"u", rfl⟩ rfl
      (by intro m hm; exact absurd hm (Nat.not_lt_zero m)) rfl,
   ingest_failure_policy.2.1 envTwoPages "c" "d" "pk" "f.pdf"
      ⟨10, 10, "RGB"⟩ [] 1 ("signed-" ++ imgKeyOf "c" "d" 1)
      ("signed-" ++ txtKeyOf "c" "d" 1) "OCR failed: boom" rfl rfl rfl,
   ingest_failure_policy.2.2 envTwoPages "c" (.ok [1]) "f.pdf" "d123" [1]
      [⟨10, 10, "RGB"⟩, ⟨20, 20, "RGB"⟩] rfl rfl
      ⟨"signed-" ++ pdfKeyOf (convOf "c") "d123", rfl⟩ rfl
      (fun m _hm => ⟨"signed-" ++ imgKeyOf (convOf "c") "d123" (1 + m), rfl⟩)⟩

/-- C3: a successful ingestion of an `N`-page document performs exactly
`N` page-image uploads whose keys are `page_1 .. page_N` of the generated
`doc_id` in ascending order, and its page-text uploads form an in-order
sublist of the corresponding `N` text keys (hence at most `N`). -/
theorem ingest_upload_counts_ordered (env : Env) (conv : String)
    (rr : Except String Bytes) (fn doc : String)
    (ups : List Upload) (r : PdfResult)
    (h : process_pdf_to_gcs env conv rr fn doc = (ups, .ok r)) :
    r.doc_id = doc ∧
    imageKeysOf ups =
      (List.range r.pages_count).map
        (fun j => imgKeyOf (convOf conv) doc (1 + j)) ∧
    (imageKeysOf ups).length = r.pages_count ∧
    (textKeysOf ups).Sublist
      ((List.range r.pages_count).map
        fun j => txtKeyOf (convOf conv) doc (1 + j)) ∧
    (textKeysOf ups).length ≤ r.pages_count := by
  obtain ⟨raw, pages, hrr, hraw, hrender, hloop, hups, hr⟩ :=
    process_ok_inversion env conv rr fn doc ups r h
  obtain ⟨k1, k2⟩ := processPages_keys env (convOf conv) doc
    (pdfKeyOf (convOf conv) doc) fn pages 1 hloop
  subst hups
  subst hr
  refine ⟨rfl, ?_, ?_, ?_, ?_⟩
  · rw [imageKeysOf_cons_pdf]
    exact k1
  · rw [imageKeysOf_cons_pdf, k1]
    simp
  · rw [textKeysOf_cons_pdf]
    exact k2
  · rw [textKeysOf_cons_pdf]
    have hlen := k2.length_le
    simpa using hlen

/-- Upload list of the two-page witness run. -/
def upsTwo : List Upload :=
  (process_pdf_to_gcs envTwoPages "c" (.ok [1]) "f.pdf" "d123").1

/-- Result of the two-page witness run. -/
def resTwo : PdfResult := ⟨"c", "d123", pdfKeyOf "c" "d123", 2⟩

/-- Witness for C3: the two-page run uploads exactly the image keys
`page_1, page_2` under `d123` and at most two text keys. -/
theorem ingest_upload_counts_ordered_witness :
    resTwo.doc_id = "d123" ∧
    imageKeysOf upsTwo =
      (List.range resTwo.pages_count).map
        (fun j => imgKeyOf (convOf "c") "d123" (1 + j)) ∧
    (imageKeysOf upsTwo).length = resTwo.pages_count ∧
    (textKeysOf upsTwo).Sublist
      ((List.range resTwo.pages_count).map
        fun j => txtKeyOf (convOf "c") "d123" (1 + j)) ∧
    (textKeysOf upsTwo).length ≤ resTwo.pages_count :=
  ingest_upload_counts_ordered envTwoPages "c" (.ok [1]) "f.pdf" "d123"
    upsTwo resTwo rfl

/-- Counterexample to C6 as stated: when the conversation identifier is
blank and no downstream endpoint is configured, the `conversation_id`
returned to the caller is the blank string, not the placeholder. -/
theorem blank_conv_counterexample :
    chat envTwoPages none postFail putOk metaOk "hi" "" none "f.pdf" "d1" =
      .ok (stubBody "") ∧
    (stubBody "").conversation_id ≠ some "no-conv" :=
  ⟨rfl, by decide⟩

/-- C6 (amended): a blank conversation identifier is replaced by
`no-conv` inside ingestion only — ingestion behaves exactly as if
`no-conv` had been passed, and its summary reports `no-conv` — while the
downstream payload and the stub answer keep the original blank value. -/
theorem blank_conv_scope :
    (∀ (env : Env) (rr : Except String Bytes) (fn doc : String),
      process_pdf_to_gcs env "" rr fn doc =
        process_pdf_to_gcs env "no-conv" rr fn doc) ∧
    (∀ (env : Env) (rr : Except String Bytes) (fn doc : String)
        (ups : List Upload) (r : PdfResult),
      process_pdf_to_gcs env "" rr fn doc = (ups, .ok r) →
      r.conversation_id = "no-conv") ∧
    (∀ (human : String) (d : Option String),
      (mkGpuPayload "" human d).conversation_id = "") ∧
    (∀ (post : GpuPayload → Except String HttpResp)
        (sign : String → Except String String)
        (readMeta : String → Except String (List (String × String)))
        (human : String) (d : Option String),
      call_gpu_backend none post sign readMeta "" human d =
        .ok (stubBody "")) := by
  refine ⟨?_, ?_, ?_, ?_⟩
  · intro env rr fn doc
    rfl
  · intro env rr fn doc ups r h
    obtain ⟨raw, pages, _, _, _, _, _, hr⟩ :=
      process_ok_inversion env "" rr fn doc ups r h
    subst hr
    rfl
  · intro human d
    rfl
  · intro post sign readMeta human d
    rfl

/-- Result of the blank-conversation witness run. -/
def resBlank : PdfResult := ⟨"no-conv", "d9", pdfKeyOf "no-conv" "d9", 2⟩

/-- Witness for the amended C6: a blank-conversation ingestion reports
`no-conv` as its conversation identifier. -/
theorem blank_conv_scope_witness :
    process_pdf_to_gcs envTwoPages "" (.ok [1]) "f.pdf" "d9" =
      ((process_pdf_to_gcs envTwoPages "" (.ok [1]) "f.pdf" "d9").1,
        .ok resBlank) ∧
    resBlank.conversation_id = "no-conv" :=
  ⟨rfl,
   blank_conv_scope.2.1 envTwoPages (.ok [1]) "f.pdf" "d9"
     (process_pdf_to_gcs envTwoPages "" (.ok [1]) "f.pdf" "d9").1
     resBlank rfl⟩

/-! ## Key-scheme parsing helpers (for the no-collision claim) -/

theorem takeWhile_all_append (p : Char → Bool) (a : List Char) (c : Char)
    (b : List Char) (ha : ∀ x ∈ a, p x = true) (hc : p c = false) :
    (a ++ c :: b).takeWhile p = a := by
  induction a with
  | nil => simp [List.takeWhile, hc]
  | cons x xs ih =>
    have hx : p x = true := ha x (by simp)
    simp [List.takeWhile, hx, ih (fun y hy => ha y (by simp [hy]))]

theorem dropWhile_all_append (p : Char → Bool) (a : List Char) (c : Char)
    (b : List Char) (ha : ∀ x ∈ a, p x = true) (hc : p c = false) :
    (a ++ c :: b).dropWhile p = c :: b := by
  induction a with
  | nil => simp [List.dropWhile, hc]
  | cons x xs ih =>
    have hx : p x = true := ha x (by simp)
    simp [List.dropWhile, hx, ih (fun y hy => ha y (by simp [hy]))]

/-- The characters after the last `/` of a key. -/
def afterLastSlash (cs : List Char) : List Char :=
  (cs.reverse.takeWhile fun c => c != '/').reverse

/-- The characters before the last `/` of a key. -/
def beforeLastSlash (cs : List Char) : List Char :=
  ((cs.reverse.dropWhile fun c => c != '/').drop 1).reverse

theorem afterLastSlash_spec (xs ys : List Char)
    (hys : ∀ c ∈ ys, c ≠ '/') :
    afterLastSlash (xs ++ '/' :: ys) = ys := by
  unfold afterLastSlash
  have hrev : (xs ++ '/' :: ys).reverse = ys.reverse ++ '/' :: xs.reverse := by
    simp
  have h1 : ∀ x ∈ ys.reverse, (x != '/') = true := by
    intro x hx
    simp only [bne_iff_ne]
    exact hys x (List.mem_reverse.mp hx)
  have h2 : (('/' : Char) != '/') = false := by simp
  rw [hrev, takeWhile_all_append _ _ _ _ h1 h2, List.reverse_reverse]

theorem beforeLastSlash_spec (xs ys : List Char)
    (hys : ∀ c ∈ ys, c ≠ '/') :
    beforeLastSlash (xs ++ '/' :: ys) = xs := by
  unfold beforeLastSlash
  have hrev : (xs ++ '/' :: ys).reverse = ys.reverse ++ '/' :: xs.reverse := by
    simp
  have h1 : ∀ x ∈ ys.reverse, (x != '/') = true := by
    intro x hx
    simp only [bne_iff_ne]
    exact hys x (List.mem_reverse.mp hx)
  have h2 : (('/' : Char) != '/') = false := by simp
  rw [hrev, dropWhile_all_append _ _ _ _ h1 h2]
  simp

theorem data_append (a b : String) : (a ++ b).data = a.data ++ b.data := rfl

theorem data_inj {a b : String} (h : a.data = b.data) : a = b := by
  cases a
  cases b
  exact congrArg String.mk h

theorem natStr_data (i : Nat) : (natStr i).data = natChars i := rfl

theorem pdfKey_data (c d : String) :
    (pdfKeyOf c d).data =
      (("pdfs/" : String).data ++ c.data) ++
        '/' :: (d.data ++ (".pdf" : String).data) := by
  have hs : ("/" : String).data = ['/'] := rfl
  simp [pdfKeyOf, data_append, hs, List.append_assoc]

theorem imgKey_data (c d : String) (i : Nat) :
    (imgKeyOf c d i).data =
      ((("pages/" : String).data ++ c.data) ++ '/' :: d.data) ++
        '/' :: (("page_" : String).data ++
          (natChars i ++ (".png" : String).data)) := by
  have hs : ("/" : String).data = ['/'] := rfl
  have hp : ("/page_" : String).data = '/' :: ("page_" : String).data := rfl
  simp [imgKeyOf, natStr_data, data_append, hs, hp, List.append_assoc]

theorem txtKey_data (c d : String) (i : Nat) :
    (txtKeyOf c d i).data =
      ((("text/" : String).data ++ c.data) ++ '/' :: d.data) ++
        '/' :: (("page_" : String).data ++
          (natChars i ++ (".txt" : String).data)) := by
  have hs : ("/" : String).data = ['/'] := rfl
  have hp : ("/page_" : String).data = '/' :: ("page_" : String).data := rfl
  simp [txtKeyOf, natStr_data, data_append, hs, hp, List.append_assoc]

theorem natCharsAux_digits (fuel : Nat) :
    ∀ n c, c ∈ natCharsAux fuel n → c.isDigit = true := by
  induction fuel with
  | zero =>
    intro n c hc
    simp [natCharsAux] at hc
  | succ f ih =>
    intro n c hc
    unfold natCharsAux at hc
    have hdig : ∀ m, m < 10 → (Nat.digitChar m).isDigit = true := by decide
    by_cases h : n < 10
    · rw [if_pos h] at hc
      simp at hc
      subst hc
      exact hdig n h
    · rw [if_neg h] at hc
      rcases List.mem_append.mp hc with h1 | h1
      · exact ih (n / 10) c h1
      · simp at h1
        subst h1
        exact hdig (n % 10) (Nat.mod_lt _ (by omega))

theorem natChars_no_slash (n : Nat) : ∀ c ∈ natChars n, c ≠ '/' := by
  intro c hc hslash
  have hd := natCharsAux_digits (n + 1) n c hc
  subst hslash
  revert hd
  decide

theorem imgSeg_no_slash (i : Nat) :
    ∀ ch ∈ ("page_" : String).data ++ (natChars i ++ (".png" : String).data),
      ch ≠ '/' := by
  intro ch hch
  rcases List.mem_append.mp hch with h | h
  · have hx : ∀ x ∈ ("page_" : String).data, x ≠ '/' := by decide
    exact hx ch h
  · rcases List.mem_append.mp h with h1 | h1
    · exact natChars_no_slash i ch h1
    · have hx : ∀ x ∈ (".png" : String).data, x ≠ '/' := by decide
      exact hx ch h1

theorem txtSeg_no_slash (i : Nat) :
    ∀ ch ∈ ("page_" : String).data ++ (natChars i ++ (".txt" : String).data),
      ch ≠ '/' := by
  intro ch hch
  rcases List.mem_append.mp hch with h | h
  · have hx : ∀ x ∈ ("page_" : String).data, x ≠ '/' := by decide
    exact hx ch h
  · rcases List.mem_append.mp h with h1 | h1
    · exact natChars_no_slash i ch h1
    · have hx : ∀ x ∈ (".txt" : String).data, x ≠ '/' := by decide
      exact hx ch h1

theorem pdf_docId (c d : String) (hd : ∀ ch ∈ d.data, ch ≠ '/') :
    afterLastSlash (pdfKeyOf c d).data = d.data ++ (".pdf" : String).data := by
  rw [pdfKey_data]
  apply afterLastSlash_spec
  intro ch hch
  rcases List.mem_append.mp hch with h | h
  · exact hd ch h
  · have hx : ∀ x ∈ (".pdf" : String).data, x ≠ '/' := by decide
    exact hx ch h

theorem img_docId (c d : String) (i : Nat) (hd : ∀ ch ∈ d.data, ch ≠ '/') :
    afterLastSlash (beforeLastSlash (imgKeyOf c d i).data) = d.data := by
  rw [imgKey_data]
  rw [beforeLastSlash_spec _ _ (imgSeg_no_slash i)]
  exact afterLastSlash_spec _ _ hd

theorem txt_docId (c d : String) (i : Nat) (hd : ∀ ch ∈ d.data, ch ≠ '/') :
    afterLastSlash (beforeLastSlash (txtKeyOf c d i).data) = d.data := by
  rw [txtKey_data]
  rw [beforeLastSlash_spec _ _ (txtSeg_no_slash i)]
  exact afterLastSlash_spec _ _ hd

theorem pdf_head2 (c d : String) : (pdfKeyOf c d).data.take 2 = ['p', 'd'] :=
  rfl

theorem img_head2 (c d : String) (i : Nat) :
    (imgKeyOf c d i).data.take 2 = ['p', 'a'] := rfl

theorem txt_head2 (c d : String) (i : Nat) :
    (txtKeyOf c d i).data.take 2 = ['t', 'e'] := rfl

theorem validDocId_no_slash (s : String) (h : validDocId s = true) :
    ∀ ch ∈ s.data, ch ≠ '/' := by
  intro ch hch hslash
  unfold validDocId at h
  rw [Bool.and_eq_true, List.all_eq_true] at h
  have hx := h.2 ch hch
  subst hslash
  revert hx
  decide

/-- C4: the artifact key scheme is deterministic — equal inputs give the
equal key string — and injective in `doc_id`: for two `make_doc_id`-shaped
doc ids that differ, no two artifact keys (of any kinds, conversations and
page numbers) coincide. -/
theorem artifactKey_deterministic_no_collision :
    (∀ (k k' : AKind) (c c' d d' : String) (n n' : Nat),
      k = k' → c = c' → d = d' → n = n' →
      artifactKey k c d n = artifactKey k' c' d' n') ∧
    (∀ (k₁ k₂ : AKind) (c₁ c₂ d₁ d₂ : String) (n₁ n₂ : Nat),
      validDocId d₁ = true → validDocId d₂ = true → d₁ ≠ d₂ →
      artifactKey k₁ c₁ d₁ n₁ ≠ artifactKey k₂ c₂ d₂ n₂) := by
  constructor
  · rintro k k' c c' d d' n n' rfl rfl rfl rfl
    rfl
  · intro k₁ k₂ c₁ c₂ d₁ d₂ n₁ n₂ h1 h2 hne heq
    have hd1 := validDocId_no_slash d₁ h1
    have hd2 := validDocId_no_slash d₂ h2
    have hdata : (artifactKey k₁ c₁ d₁ n₁).data =
        (artifactKey k₂ c₂ d₂ n₂).data := by rw [heq]
    cases k₁ <;> cases k₂ <;> simp only [artifactKey] at hdata
    case pdf.pdf =>
      have e1 := pdf_docId c₁ d₁ hd1
      rw [hdata, pdf_docId c₂ d₂ hd2] at e1
      exact hne (data_inj (List.append_cancel_right e1)).symm
    case pdf.pageImage =>
      have t1 := pdf_head2 c₁ d₁
      rw [hdata, img_head2 c₂ d₂ n₂] at t1
      exact absurd t1 (by decide)
    case pdf.pageText =>
      have t1 := pdf_head2 c₁ d₁
      rw [hdata, txt_head2 c₂ d₂ n₂] at t1
      exact absurd t1 (by decide)
    case pageImage.pdf =>
      have t1 := pdf_head2 c₂ d₂
      rw [← hdata, img_head2 c₁ d₁ n₁] at t1
      exact absurd t1 (by decide)
    case pageImage.pageImage =>
      have e1 := img_docId c₁ d₁ n₁ hd1
      rw [hdata, img_docId c₂ d₂ n₂ hd2] at e1
      exact hne (data_inj e1).symm
    case pageImage.pageText =>
      have t1 := img_head2 c₁ d₁ n₁
      rw [hdata, txt_head2 c₂ d₂ n₂] at t1
      exact absurd t1 (by decide)
    case pageText.pdf =>
      have t1 := pdf_head2 c₂ d₂
      rw [← hdata, txt_head2 c₁ d₁ n₁] at t1
      exact absurd t1 (by decide)
    case pageText.pageImage =>
      have t1 := img_head2 c₂ d₂ n₂
      rw [← hdata, txt_head2 c₁ d₁ n₁] at t1
      exact absurd t1 (by decide)
    case pageText.pageText =>
      have e1 := txt_docId c₁ d₁ n₁ hd1
      rw [hdata, txt_docId c₂ d₂ n₂ hd2] at e1
      exact hne (data_inj e1).symm

/-- Witness for C4: two 16-hex doc ids differing in the last character
give distinct page-image keys. -/
theorem artifactKey_deterministic_no_collision_witness :
    validDocId "0123456789abcdef" = true ∧
    validDocId "0123456789abcdee" = true ∧
    ("0123456789abcdef" : String) ≠ "0123456789abcdee" ∧
    artifactKey .pageImage "conv" "0123456789abcdef" 3 ≠
      artifactKey .pageImage "conv" "0123456789abcdee" 3 :=
  ⟨by decide, by decide, by decide,
   artifactKey_deterministic_no_collision.2 .pageImage .pageImage
     "conv" "conv" "0123456789abcdef" "0123456789abcdee" 3 3
     (by decide) (by decide) (by decide)⟩

end Mercer
